import Mathlib

/-!
Shallow embedding of the loan-eligibility pipeline of `app.py`
(policy extraction, roster normalization, eligibility evaluation,
and the top-level gating of the app script), together with theorems
settling the specification claims about it.

Python numbers (`float`/money) are modelled as exact decimal numbers
`Dec` (an integer mantissa over a power-of-ten denominator): every
number occurring in this program is produced by decimal-literal parsing,
multiplication, addition, and division by a power of ten, so `Dec` is
closed under all the arithmetic the code performs and keeps it exact.
`Dec.val` interprets a `Dec` as a rational for the algebraic statements.
Python `None` is `Option.none`; the regex searches of the source are
embedded as explicit character-list scanners with the same
leftmost-match and alternation-order semantics.
-/

set_option maxRecDepth 100000

namespace LoanBot

/-- Exact decimal number `num / 10 ^ exp`, the shallow embedding of the
Python floats this program manipulates. -/
structure Dec where
  num : Int
  exp : Nat
deriving Repr, DecidableEq

/-- Interpretation of a `Dec` as a rational number. -/
def Dec.val (a : Dec) : ℚ := (a.num : ℚ) / (10 : ℚ) ^ a.exp

/-- A natural number as a `Dec`. -/
def Dec.ofNat (n : Nat) : Dec := ⟨(n : Int), 0⟩

/-- Exact decimal addition. -/
def Dec.add (a b : Dec) : Dec :=
  ⟨a.num * 10 ^ b.exp + b.num * 10 ^ a.exp, a.exp + b.exp⟩

/-- Exact decimal multiplication. -/
def Dec.mul (a b : Dec) : Dec := ⟨a.num * b.num, a.exp + b.exp⟩

/-- Negation. -/
def Dec.neg (a : Dec) : Dec := ⟨-a.num, a.exp⟩

/-- Division by `10 ^ k` (exact). -/
def Dec.divPow10 (a : Dec) (k : Nat) : Dec := ⟨a.num, a.exp + k⟩

/-- Multiplication by `10 ^ k` (exact). -/
def Dec.mulPow10 (a : Dec) (k : Nat) : Dec :=
  if k ≤ a.exp then ⟨a.num, a.exp - k⟩ else ⟨a.num * 10 ^ (k - a.exp), 0⟩

/-- Comparison `a ≤ b`, by cross-multiplying the power-of-ten denominators. -/
def Dec.le (a b : Dec) : Bool := a.num * 10 ^ b.exp ≤ b.num * 10 ^ a.exp

/-- Comparison `a < b`. -/
def Dec.lt (a b : Dec) : Bool := a.num * 10 ^ b.exp < b.num * 10 ^ a.exp

/-- Python `int()` applied to a number: truncation toward zero. -/
def Dec.pyInt (a : Dec) : Int :=
  let d : Int := 10 ^ a.exp
  if 0 ≤ a.num then Int.fdiv a.num d else -Int.fdiv (-a.num) d

/-- Python 3 `round()` to an integer: round half to even. -/
def Dec.pyRound (a : Dec) : Int :=
  let d : Int := 10 ^ a.exp
  let f := Int.fdiv a.num d
  let r := a.num - f * d
  if 2 * r < d then f
  else if d < 2 * r then f + 1
  else if f % 2 = 0 then f else f + 1

/-- The test `abs(val - int(val)) > 1e-9` of `tenure_to_months`, i.e.
the fractional part of `a` exceeds the `1e-9` tolerance: with
`t = int(a)` and denominator `d = 10 ^ exp` this is
`|num - t * d| * 10 ^ 9 > d`. -/
def Dec.fracBeyondTol (a : Dec) : Bool :=
  let d : Int := 10 ^ a.exp
  let r := a.num - a.pyInt * d
  (if r < 0 then -r else r) * 10 ^ 9 > d

/-- Whitespace characters matched by Python's regex `\s` and stripped by
`str.strip` (space, tab, newline, carriage return, vertical tab, form feed). -/
def isSpaceChar (c : Char) : Bool :=
  c = ' ' || c = '\t' || c = '\n' || c = '\r' || c = '\x0b' || c = '\x0c'

/-- Drop a literal character sequence from the front of the input,
returning the remainder when the whole literal is present. -/
def dropLit : List Char → List Char → Option (List Char)
  | [], cs => some cs
  | _ :: _, [] => none
  | p :: ps, c :: cs => if c = p then dropLit ps cs else none

/-- Value of a digit string, most significant digit first. -/
def digitsToNat (ds : List Char) : Nat :=
  ds.foldl (fun a c => a * 10 + (c.toNat - 48)) 0

/-- Match `\d+(?:\.\d+)?` at the head of the input (greedy, with the usual
regex backtracking when a dot is not followed by a digit); returns the
captured decimal value and the rest of the input. -/
def matchNumberAt (cs : List Char) : Option (Dec × List Char) :=
  let ds := cs.takeWhile Char.isDigit
  let rest := cs.dropWhile Char.isDigit
  if ds.isEmpty then none
  else
    match rest with
    | '.' :: rest2 =>
      let fs := rest2.takeWhile Char.isDigit
      let rest3 := rest2.dropWhile Char.isDigit
      if fs.isEmpty then some (⟨(digitsToNat ds : Int), 0⟩, rest)
      else some (⟨(digitsToNat ds * 10 ^ fs.length + digitsToNat fs : Int), fs.length⟩, rest3)
    | _ => some (⟨(digitsToNat ds : Int), 0⟩, rest)

/-- Leftmost-match search: try the matcher at every start position,
left to right, as Python's `re.search` does. -/
def scanFirst {α : Type} (f : List Char → Option α) : List Char → Option α
  | [] => none
  | c :: cs =>
    match f (c :: cs) with
    | some v => some v
    | none => scanFirst f cs

/-- First candidate on which the matcher succeeds (used to realise regex
alternation / optional-group backtracking order). -/
def firstSome {α : Type} (f : List Char → Option α) : List (List Char) → Option α
  | [] => none
  | c :: cs =>
    match f c with
    | some v => some v
    | none => firstSome f cs

/-- Candidate remainders for a greedy optional single character: with the
character consumed first, then without. -/
def optChar (p : Char → Bool) (cs : List Char) : List (List Char) :=
  match cs with
  | c :: rest => if p c then [rest, cs] else [cs]
  | [] => [cs]

/-- `pat` occurs as a contiguous substring. -/
def containsSubL (pat : List Char) : List Char → Bool
  | [] => pat.isEmpty
  | c :: cs => (dropLit pat (c :: cs)).isSome || containsSubL pat cs

/-- `String` version of substring containment. -/
def containsSub (s pat : String) : Bool := containsSubL pat.data s.data

/-- ASCII lowercasing, as applied by `str.lower()` on the inputs of interest. -/
def lowerS (s : String) : String := String.mk (s.data.map Char.toLower)

/-- Python `str.strip()`. -/
def pyStrip (s : String) : String :=
  String.mk (((s.data.dropWhile isSpaceChar).reverse.dropWhile isSpaceChar).reverse)

/-- Unsigned part of a Python `float()` literal: `\d+(\.\d*)?` or `\.\d+`;
returns the value and the unconsumed rest. -/
def parseUnsigned (cs : List Char) : Option (Dec × List Char) :=
  let ds := cs.takeWhile Char.isDigit
  let rest := cs.dropWhile Char.isDigit
  if ds.isEmpty then
    match cs with
    | '.' :: rest2 =>
      let fs := rest2.takeWhile Char.isDigit
      let rest3 := rest2.dropWhile Char.isDigit
      if fs.isEmpty then none
      else some (⟨(digitsToNat fs : Int), fs.length⟩, rest3)
    | _ => none
  else
    match rest with
    | '.' :: rest2 =>
      let fs := rest2.takeWhile Char.isDigit
      let rest3 := rest2.dropWhile Char.isDigit
      some (⟨(digitsToNat ds * 10 ^ fs.length + digitsToNat fs : Int), fs.length⟩, rest3)
    | _ => some (⟨(digitsToNat ds : Int), 0⟩, rest)

/-- Optional exponent suffix of a `float()` literal; the whole remaining
input must be consumed. -/
def parseExpTail (v : Dec) (cs : List Char) : Option Dec :=
  match cs with
  | [] => some v
  | 'e' :: rest =>
    let signNeg := match rest with
      | '-' :: _ => true
      | _ => false
    let rest2 := match rest with
      | '+' :: r => r
      | '-' :: r => r
      | r => r
    let ds := rest2.takeWhile Char.isDigit
    let rest3 := rest2.dropWhile Char.isDigit
    if ds.isEmpty || !rest3.isEmpty then none
    else some (if signNeg then v.divPow10 (digitsToNat ds) else v.mulPow10 (digitsToNat ds))
  | _ => none

/-- Python `float(s)` on an already stripped, lowercased string, modelled
for plain decimal literals with optional sign and exponent (the forms the
roster cells take; `inf`/`nan`/underscored literals are out of scope and
map to `none`). `none` models a raised `ValueError`. -/
def parseFloat (s : String) : Option Dec :=
  match s.data with
  | '+' :: cs => (parseUnsigned cs).bind fun vr => parseExpTail vr.1 vr.2
  | '-' :: cs => ((parseUnsigned cs).bind fun vr => parseExpTail vr.1 vr.2).map Dec.neg
  | cs => (parseUnsigned cs).bind fun vr => parseExpTail vr.1 vr.2

/-- Literal `year`. -/
def yearL : List Char := ['y', 'e', 'a', 'r']

/-- Literal `yr`. -/
def yrL : List Char := ['y', 'r']

/-- Literal `y`. -/
def yL : List Char := ['y']

/-- Literal `month`. -/
def monthL : List Char := ['m', 'o', 'n', 't', 'h']

/-- Literal `mth`. -/
def mthL : List Char := ['m', 't', 'h']

/-- Literal `mo`. -/
def moL : List Char := ['m', 'o']

/-- Match of `(\d+(?:\.\d+)?)\s*(?:year|yr|y)(?:s)?` at the current
position (the years pattern of `tenure_to_months`); captures group 1. -/
def matchYearsAt (cs : List Char) : Option Dec :=
  match matchNumberAt cs with
  | none => none
  | some (v, rest) =>
    let r := rest.dropWhile isSpaceChar
    if ((dropLit yearL r).orElse fun _ => (dropLit yrL r).orElse fun _ => dropLit yL r).isSome
    then some v else none

/-- Match of `(\d+)\s*(?:month|mth|mo)(?:s)?` at the current position
(the months pattern of `tenure_to_months`); captures group 1. -/
def matchMonthsAt (cs : List Char) : Option Nat :=
  let ds := cs.takeWhile Char.isDigit
  let rest := cs.dropWhile Char.isDigit
  if ds.isEmpty then none
  else
    let r := rest.dropWhile isSpaceChar
    if ((dropLit monthL r).orElse fun _ => (dropLit mthL r).orElse fun _ => dropLit moL r).isSome
    then some (digitsToNat ds) else none

/-- `re.search` of the years pattern over the whole string. -/
def findYears (s : String) : Option Dec := scanFirst matchYearsAt s.data

/-- `re.search` of the months pattern over the whole string. -/
def findMonths (s : String) : Option Nat := scanFirst matchMonthsAt s.data

/-- The `str(v).strip().lower()` normalization applied to a tenure cell. -/
def normTenure (raw : String) : String := lowerS (pyStrip raw)

/-- `tenure_to_months` of `app.py` (`load_employees`): coerce a raw tenure
cell to whole months. `none` input models a `NaN` cell; `none` output marks
the row unusable. -/
def tenure_to_months (v : Option String) : Option Int :=
  match v with
  | none => none
  | some raw =>
    let s := normTenure raw
    match findYears s, findMonths s with
    | some y, some m => some ((y.mul (Dec.ofNat 12)).add (Dec.ofNat m)).pyRound
    | some y, none => some (y.mul (Dec.ofNat 12)).pyRound
    | none, some m => some ((m : Int))
    | none, none =>
      match parseFloat s with
      | some val =>
        if Dec.lt (Dec.ofNat 0) val && Dec.le val (Dec.ofNat 10) && val.fracBeyondTol
        then some (val.mul (Dec.ofNat 12)).pyRound
        else some val.pyInt
      | none => none

/-- `to_money` of `app.py` (`load_employees`): strip commas and extract the
first decimal number (`re.search` of `([0-9]+(?:\.[0-9]+)?)`); `none` input
models a `NaN` cell, `none` output an unusable value. -/
def to_money (x : Option String) : Option Dec :=
  match x with
  | none => none
  | some raw => (scanFirst matchNumberAt (raw.data.filter (· ≠ ','))).map Prod.fst

/-- Salary-column predicate of `load_employees` on a lowercased, stripped
header: `("salary" in k and "base" in k) or k in ["salary", "base salary",
"current base salary"]`. -/
def salaryKeyP (k : String) : Bool :=
  (containsSub k "salary" && containsSub k "base")
    || k = "salary" || k = "base salary" || k = "current base salary"

/-- Name-column predicate of `load_employees`:
`k in ["name", "employee", "employee name"]`. -/
def nameKeyP (k : String) : Bool :=
  k = "name" || k = "employee" || k = "employee name"

/-- Tenure-column predicate of `load_employees`:
`"tenure" in k or "years" in k or "months" in k`. -/
def tenureKeyP (k : String) : Bool :=
  containsSub k "tenure" || containsSub k "years" || containsSub k "months"

/-- One insertion of the dict comprehension
`{c.lower().strip(): c for c in df.columns}`: a later duplicate key
overwrites the value in place, a new key is appended. -/
def colsDictStep (acc : List (String × String)) (c : String) : List (String × String) :=
  let k := pyStrip (lowerS c)
  if acc.any (fun p => p.1 = k) then acc.map (fun p => if p.1 = k then (k, c) else p)
  else acc ++ [(k, c)]

/-- The dict comprehension `{c.lower().strip(): c for c in df.columns}`:
association list from lowered-stripped header to original header, insertion
order of first occurrence, later duplicates overwriting the value. -/
def colsDict (cols : List String) : List (String × String) :=
  cols.foldl colsDictStep []

/-- `next((cols[k] for k in cols if pred(k)), None)`: the original header of
the first key satisfying the predicate. -/
def findCol (d : List (String × String)) (p : String → Bool) : Option String :=
  (d.find? (fun kv => p kv.1)).map Prod.snd

/-- A raw roster table: the column headers and the rows, each row a mapping
from header to cell (`none` cells model `NaN`). -/
structure RawTable where
  cols : List String
  rows : List (List (String × Option String))

/-- Cell of a row under a given column header. -/
def getCell (row : List (String × Option String)) (col : String) : Option String :=
  (row.lookup col).join

/-- A normalized employee record, one row of the usable dataset.
`base_salary`/`tenure_months` are `Option`s because `check_eligibility`
re-checks them with `pd.isna`. -/
structure EmpRow where
  name : String
  name_key : String
  base_salary : Option Dec
  tenure_months : Option Int
deriving Repr, DecidableEq

/-- `load_employees` of `app.py`: resolve the name/salary/tenure columns
from the headers (case-insensitively), coerce salary and tenure, and drop
rows missing any of the three; `none` input models a failed `read_excel`,
`none` output the "no usable dataset" result. -/
def load_employees (t : Option RawTable) : Option (List EmpRow) :=
  match t with
  | none => none
  | some tbl =>
    let d := colsDict tbl.cols
    match findCol d nameKeyP, findCol d salaryKeyP, findCol d tenureKeyP with
    | some nc, some sc, some tc =>
      some (tbl.rows.filterMap fun row =>
        match getCell row nc, to_money (getCell row sc), tenure_to_months (getCell row tc) with
        | some n, some sal, some tm =>
          some ⟨n, lowerS (pyStrip n), some sal, some tm⟩
        | _, _, _ => none)
    | _, _, _ => none

/-- The `rules` dict of a parsed policy (`extract_policy_checklist_and_rules`);
every field `none` means "rule not found; do not enforce". -/
structure Rules where
  min_tenure_months : Option Int
  min_tenure_years : Option Dec
  max_loan_amount : Option Dec
  max_salary_multiple : Option Dec
  multiple_context : Option String
  max_percent_of_salary : Option Dec
  min_base_salary : Option Dec
deriving Repr, DecidableEq

/-- The all-`none` rule set. -/
def emptyRules : Rules := ⟨none, none, none, none, none, none, none⟩

/-- A parsed policy: checklist items plus numeric rules. -/
structure Policy where
  checklist : List String
  rules : Rules
deriving Repr, DecidableEq

/-- Verdict of `check_eligibility`. The constructors stand for the four
return shapes of the source: `escalate` for the `HUMAN_ESCALATION` string,
`notEligible r it` for the "Not eligible (...)" strings with the
`{"reason": r}` (and optional `failed_item`) extras, `conditionallyEligible
cap` for "Conditionally eligible up to {cap}", and `eligible` for
"Eligible per current policy and records.". -/
inductive Verdict where
  | escalate
  | notEligible (reason : String) (failedItem : Option String)
  | conditionallyEligible (cap : Dec)
  | eligible
deriving Repr, DecidableEq

/-- One step of Python's `min` over a list: keep the current minimum
unless the next element is strictly smaller. -/
def pymin (m c : Dec) : Dec := if Dec.lt c m then c else m

/-- `compute_amount_cap` of `app.py`: collect the caps that are set —
the absolute `max_loan_amount`, `max_salary_multiple * base_salary` (only
when `multiple_context == "months"`), `base_salary * (max_percent_of_salary
/ 100)` — and return their minimum (`none` when no cap is set). -/
def compute_amount_cap (base_salary : Option Dec) (rules : Rules) : Option Dec :=
  let caps : List Dec :=
    (match rules.max_loan_amount with
      | some a => [a]
      | none => []) ++
    (match rules.multiple_context, rules.max_salary_multiple, base_salary with
      | some ctx, some m, some s => if ctx = "months" then [m.mul s] else []
      | _, _, _ => []) ++
    (match rules.max_percent_of_salary, base_salary with
      | some p, some s => [s.mul (p.divPow10 2)]
      | _, _ => [])
  match caps with
  | [] => none
  | c :: cs => some (cs.foldl pymin c)

/-- The first tenure gate: `min_tenure_months` is set and the employee's
tenure is below it. -/
def tenureMonthsLow (t : Int) (r : Rules) : Bool :=
  match r.min_tenure_months with
  | some mt => t < mt
  | none => false

/-- The second tenure gate: `min_tenure_years` is set and the tenure in
months is below `int(round(years * 12))`. -/
def tenureYearsLow (t : Int) (r : Rules) : Bool :=
  match r.min_tenure_years with
  | some ty => t < (ty.mul (Dec.ofNat 12)).pyRound
  | none => false

/-- The salary floor gate: `min_base_salary` is set and the base salary is
below it. -/
def salaryLow (s : Dec) (r : Rules) : Bool :=
  match r.min_base_salary with
  | some mb => Dec.lt s mb
  | none => false

/-- The checklist loop of `check_eligibility`: scan the items in order;
an item missing from `answers` escalates, an item answered other than
`True` is a checklist failure naming that item; all items answered `True`
let evaluation continue (`none`). -/
def checklistCheck (answers : List (String × Bool)) : List String → Option Verdict
  | [] => none
  | item :: rest =>
    match answers.lookup item with
    | none => some .escalate
    | some b =>
      if b then checklistCheck answers rest
      else some (.notEligible "checklist" (some item))

/-- The amount block of `check_eligibility`: skipped when no amount is
requested; otherwise escalate when no cap can be computed, and flag a
request above the cap as conditionally eligible. -/
def amountStage (base_salary : Dec) (requested : Option Dec) (rules : Rules) : Verdict :=
  match requested with
  | none => .eligible
  | some req =>
    match compute_amount_cap (some base_salary) rules with
    | none => .escalate
    | some cap => if Dec.lt cap req then .conditionallyEligible cap else .eligible

/-- `check_eligibility` of `app.py`: escalate on a missing/incomplete
record, then apply — in order — the tenure gates, the salary floor, the
checklist loop, and the amount block. -/
def check_eligibility (emp_row : Option EmpRow) (requested : Option Dec)
    (answers : List (String × Bool)) (policy : Policy) : Verdict :=
  match emp_row with
  | none => .escalate
  | some emp =>
    match emp.base_salary, emp.tenure_months with
    | some base_salary, some tenure_months =>
      let rules := policy.rules
      if tenureMonthsLow tenure_months rules then .notEligible "tenure" none
      else if tenureYearsLow tenure_months rules then .notEligible "tenure" none
      else if salaryLow base_salary rules then .notEligible "base_salary" none
      else
        match checklistCheck answers policy.checklist with
        | some v => v
        | none => amountStage base_salary requested rules
    | _, _ => .escalate

/-- Candidate remainders for a greedy optional literal: with the literal
consumed first, then without. -/
def optLit (lit : List Char) (cs : List Char) : List (List Char) :=
  match dropLit lit cs with
  | some r => [r, cs]
  | none => [cs]

/-- Match `\d+` at the head of the input. -/
def matchIntAt (cs : List Char) : Option (Nat × List Char) :=
  let ds := cs.takeWhile Char.isDigit
  let rest := cs.dropWhile Char.isDigit
  if ds.isEmpty then none else some (digitsToNat ds, rest)

/-- The lead `(?:min(?:imum)?\s+tenure|at\s+least)` of the tenure rules. -/
def matchTenureLeadAt (cs : List Char) : Option (List Char) :=
  (match dropLit "min".data cs with
   | some r =>
     firstSome (fun r2 =>
       let ws := r2.takeWhile isSpaceChar
       let r3 := r2.dropWhile isSpaceChar
       if ws.isEmpty then none else dropLit "tenure".data r3) (optLit "imum".data r)
   | none => none).orElse fun _ =>
    match dropLit "at".data cs with
    | some r =>
      let ws := r.takeWhile isSpaceChar
      let r2 := r.dropWhile isSpaceChar
      if ws.isEmpty then none else dropLit "least".data r2
    | none => none

/-- The tenure-in-years rule pattern
`(?:min(?:imum)?\s+tenure|at\s+least)\s+(\d+(?:\.\d+)?)\s*(?:years|yrs?)`
at the current position; captures group 1. -/
def matchTenureYearsAt (cs : List Char) : Option Dec :=
  match matchTenureLeadAt cs with
  | none => none
  | some r =>
    let ws := r.takeWhile isSpaceChar
    let r2 := r.dropWhile isSpaceChar
    if ws.isEmpty then none
    else
      match matchNumberAt r2 with
      | none => none
      | some (v, r3) =>
        let r4 := r3.dropWhile isSpaceChar
        if ((dropLit "years".data r4).orElse fun _ => dropLit "yr".data r4).isSome
        then some v else none

/-- The tenure-in-months rule pattern
`(?:min(?:imum)?\s+tenure|at\s+least)\s+(\d+)\s*(?:months?|mths?)`
at the current position; captures group 1. -/
def matchTenureMonthsAt (cs : List Char) : Option Nat :=
  match matchTenureLeadAt cs with
  | none => none
  | some r =>
    let ws := r.takeWhile isSpaceChar
    let r2 := r.dropWhile isSpaceChar
    if ws.isEmpty then none
    else
      match matchIntAt r2 with
      | none => none
      | some (v, r3) =>
        let r4 := r3.dropWhile isSpaceChar
        if ((dropLit monthL r4).orElse fun _ => dropLit mthL r4).isSome
        then some v else none

/-- The characters of the class `[â€™']` in the salary-multiple pattern
(the mojibake of a curly apostrophe, plus the plain apostrophe). -/
def isQuoteChar (c : Char) : Bool :=
  c = 'â' || c = '€' || c = '™' || c = Char.ofNat 39

/-- `(?:base\s+)?salary` with its greedy backtracking; returns the rest
after `salary`. -/
def matchBaseSalaryTail (cs : List Char) : Option (List Char) :=
  (match dropLit "base".data cs with
   | some r =>
     let ws := r.takeWhile isSpaceChar
     let r2 := r.dropWhile isSpaceChar
     if ws.isEmpty then none else dropLit "salary".data r2
   | none => none).orElse fun _ => dropLit "salary".data cs

/-- `\s+(?:base\s+)?salary`. -/
def matchWsSalaryTail (cs : List Char) : Option (List Char) :=
  let ws := cs.takeWhile isSpaceChar
  let r := cs.dropWhile isSpaceChar
  if ws.isEmpty then none else matchBaseSalaryTail r

/-- After the literal `month`: the remainder of the group
`(months?[â€™']?|months?\s+of)` followed by `\s+(?:base\s+)?salary`,
with the alternation and optional-quantifier backtracking order of the
regex engine. -/
def matchMonthsGroupTail (r : List Char) : Option (List Char) :=
  (firstSome matchWsSalaryTail ((optChar (· = 's') r).flatMap (optChar isQuoteChar))).orElse
    fun _ =>
      firstSome (fun r2 =>
          let ws := r2.takeWhile isSpaceChar
          let r3 := r2.dropWhile isSpaceChar
          if ws.isEmpty then none
          else
            match dropLit "of".data r3 with
            | some r4 => matchWsSalaryTail r4
            | none => none)
        (optChar (· = 's') r)

/-- The salary-multiple pattern
`(?:up to|maximum of)?\s*(\d+(?:\.\d+)?)\s*(months?[â€™']?|months?\s+of)\s+(?:base\s+)?salary`
at the current position; returns the captured multiplier and the rest of
the input after the match. -/
def matchMultAt (cs : List Char) : Option (Dec × List Char) :=
  firstSome
    (fun s0 =>
      let s1 := s0.dropWhile isSpaceChar
      match matchNumberAt s1 with
      | none => none
      | some (v, r) =>
        let r2 := r.dropWhile isSpaceChar
        match dropLit monthL r2 with
        | none => none
        | some r3 => (matchMonthsGroupTail r3).map fun rest => (v, rest))
    ((match dropLit "up to".data cs with
      | some r => [r]
      | none => []) ++
     (match dropLit "maximum of".data cs with
      | some r => [r]
      | none => []) ++ [cs])

/-- All matches of the salary-multiple pattern in source order
(`re.finditer` semantics: leftmost, non-overlapping), fuelled by the input
length, which suffices since every match consumes at least one character. -/
def scanMultGo : Nat → List Char → List Dec
  | 0, _ => []
  | _ + 1, [] => []
  | n + 1, c :: cs =>
    match matchMultAt (c :: cs) with
    | some (v, rest) => v :: scanMultGo n rest
    | none => scanMultGo n cs

/-- The salary-multiple matches of a string. -/
def multMatches (s : String) : List Dec := scanMultGo s.data.length s.data

/-- The percentage-of-salary pattern
`(?:max(?:imum)?\s*)?(\d+(?:\.\d+)?)\s*%\s*(?:of\s+)?(?:base\s+)?salary`
at the current position; returns the captured percentage and the rest of
the input after the match. -/
def matchPctAt (cs : List Char) : Option (Dec × List Char) :=
  firstSome
    (fun s0 =>
      match matchNumberAt s0 with
      | none => none
      | some (v, r) =>
        let r2 := r.dropWhile isSpaceChar
        match r2 with
        | '%' :: r3 =>
          let r4 := r3.dropWhile isSpaceChar
          (((match dropLit "of".data r4 with
             | some r5 =>
               let ws := r5.takeWhile isSpaceChar
               let r6 := r5.dropWhile isSpaceChar
               if ws.isEmpty then none else matchBaseSalaryTail r6
             | none => none).orElse fun _ => matchBaseSalaryTail r4).map
            fun rest => (v, rest))
        | _ => none)
    ((match dropLit "max".data cs with
      | some r => (optLit "imum".data r).map fun r2 => r2.dropWhile isSpaceChar
      | none => []) ++ [cs])

/-- All matches of the percentage pattern in source order. -/
def scanPctGo : Nat → List Char → List Dec
  | 0, _ => []
  | _ + 1, [] => []
  | n + 1, c :: cs =>
    match matchPctAt (c :: cs) with
    | some (v, rest) => v :: scanPctGo n rest
    | none => scanPctGo n cs

/-- The percentage matches of a string. -/
def pctMatches (s : String) : List Dec := scanPctGo s.data.length s.data

/-- The money tail `\s*[:\-]?\s*\$?\s*([0-9][0-9,\.]+)` of the absolute-cap
and minimum-salary rules; `some none` models a regex match whose captured
group fails `float()` after comma stripping (the `except: pass` branch). -/
def matchMoneyTail (cs : List Char) : Option (Option Dec) :=
  let r1 := cs.dropWhile isSpaceChar
  let r2 := match r1 with
    | ':' :: r => r
    | '-' :: r => r
    | r => r
  let r3 := r2.dropWhile isSpaceChar
  let r4 := match r3 with
    | '$' :: r => r
    | r => r
  let r5 := r4.dropWhile isSpaceChar
  match r5 with
  | c :: rest =>
    if c.isDigit then
      let ms := rest.takeWhile fun d => d.isDigit || d = ',' || d = '.'
      if ms.isEmpty then none
      else some (parseFloat (String.mk ((c :: ms).filter (· ≠ ','))))
    else none
  | [] => none

/-- The lead `(?:max(?:imum)?\s*loan\s*amount|cap)` of the absolute-cap rule. -/
def matchAbsLeadAt (cs : List Char) : Option (List Char) :=
  (match dropLit "max".data cs with
   | some r =>
     firstSome (fun r2 =>
         match dropLit "loan".data (r2.dropWhile isSpaceChar) with
         | some r3 => dropLit "amount".data (r3.dropWhile isSpaceChar)
         | none => none)
       (optLit "imum".data r)
   | none => none).orElse fun _ => dropLit "cap".data cs

/-- The absolute-cap rule at the current position. -/
def matchAbsAt (cs : List Char) : Option (Option Dec) :=
  (matchAbsLeadAt cs).bind matchMoneyTail

/-- The lead `(?:min(?:imum)?\s*base\s*salary)` of the minimum-base-salary
rule. -/
def matchMinSalLeadAt (cs : List Char) : Option (List Char) :=
  match dropLit "min".data cs with
  | some r =>
    firstSome (fun r2 =>
        match dropLit "base".data (r2.dropWhile isSpaceChar) with
        | some r3 => dropLit "salary".data (r3.dropWhile isSpaceChar)
        | none => none)
      (optLit "imum".data r)
  | none => none

/-- The minimum-base-salary rule at the current position. -/
def matchMinSalAt (cs : List Char) : Option (Option Dec) :=
  (matchMinSalLeadAt cs).bind matchMoneyTail

/-- The numeric-rule extraction of `extract_policy_checklist_and_rules`,
applied to the space-joined normalized lines (all patterns carry `re.I`,
modelled by lowercasing the text): `re.search` (first match) for the
tenure, percentage, absolute-cap and minimum-salary rules; the
`re.finditer` loop for the salary multiple, whose last match wins and
which sets `multiple_context = "months"` exactly when it matches. -/
def extractRules (joined : String) : Rules :=
  let cs := (lowerS joined).data
  { min_tenure_months := (scanFirst matchTenureMonthsAt cs).map fun n => (n : Int)
    min_tenure_years := scanFirst matchTenureYearsAt cs
    max_loan_amount := (scanFirst matchAbsAt cs).bind id
    max_salary_multiple := (scanMultGo cs.length cs).getLast?
    multiple_context :=
      if (scanMultGo cs.length cs).isEmpty then none else some "months"
    max_percent_of_salary := (scanPctGo cs.length cs).head?
    min_base_salary := (scanFirst matchMinSalAt cs).bind id }

/-- `re.sub(r"[ \t]+", " ", text)`: collapse runs of spaces and tabs. -/
def collapseGo : Bool → List Char → List Char
  | _, [] => []
  | prevST, c :: cs =>
    if c = ' ' || c = '\t' then
      if prevST then collapseGo true cs else ' ' :: collapseGo true cs
    else c :: collapseGo false cs

/-- String version of the space/tab collapse. -/
def collapseSpTab (s : String) : String := String.mk (collapseGo false s.data)

/-- Python `str.replace` (all non-overlapping occurrences, left to right),
fuelled by the input length, which suffices for nonempty patterns. -/
def replaceGo (pat repl : List Char) : Nat → List Char → List Char
  | 0, cs => cs
  | _ + 1, [] => []
  | n + 1, c :: cs =>
    match dropLit pat (c :: cs) with
    | some rest => repl ++ replaceGo pat repl n rest
    | none => c :: replaceGo pat repl n cs

/-- String version of `str.replace`. -/
def replaceStr (s pat repl : String) : String :=
  String.mk (replaceGo pat.data repl.data s.data.length s.data)

/-- Python `str.splitlines` for `\n`/`\r\n`/`\r` terminators (no trailing
empty line for a terminated string, `[]` for the empty string). -/
def splitLinesGo (acc : List Char) : List Char → List String
  | [] => [String.mk acc.reverse]
  | '\r' :: '\n' :: cs =>
    String.mk acc.reverse :: (if cs.isEmpty then [] else splitLinesGo [] cs)
  | '\r' :: cs =>
    String.mk acc.reverse :: (if cs.isEmpty then [] else splitLinesGo [] cs)
  | '\n' :: cs =>
    String.mk acc.reverse :: (if cs.isEmpty then [] else splitLinesGo [] cs)
  | c :: cs => splitLinesGo (c :: acc) cs

/-- `str.splitlines`. -/
def splitLines (s : String) : List String :=
  if s = "" then [] else splitLinesGo [] s.data

/-- The shape part of the heading regex `^[A-Z][A-Za-z ]{0,60}$`
(full-line match). -/
def headingShape (l : String) : Bool :=
  match l.data with
  | [] => false
  | c :: rest =>
    ('A' ≤ c && c ≤ 'Z') && rest.length ≤ 60 &&
      rest.all fun d => ('A' ≤ d && d ≤ 'Z') || ('a' ≤ d && d ≤ 'z') || d = ' '

/-- `len(l.split())`: number of whitespace-separated words. -/
def wordCountGo : Bool → List Char → Nat
  | _, [] => 0
  | inWord, c :: cs =>
    if isSpaceChar c then wordCountGo false cs
    else (if inWord then 0 else 1) + wordCountGo true cs

/-- Word count of a string. -/
def pyWordCount (l : String) : Nat := wordCountGo false l.data

/-- A heading line: the heading regex plus the `≤ 7` word bound
(used by the headings list and by the `break` of `capture_bullets`). -/
def isHeading (l : String) : Bool := headingShape l && pyWordCount l ≤ 7

/-- The bullet-marker match `^(-|\*|\d+[\.\)]|â–¡|â–ª|â€“)\s`; returns
the rest after the marker and the single following whitespace character. -/
def bulletMarkerAt (cs : List Char) : Option (List Char) :=
  let afterMark : Option (List Char) :=
    (match cs with
     | '-' :: r => some r
     | '*' :: r => some r
     | _ => none).orElse fun _ =>
      (match matchIntAt cs with
       | some (_, '.' :: r) => some r
       | some (_, ')' :: r) => some r
       | _ => none).orElse fun _ =>
        (dropLit "â–¡".data cs).orElse fun _ =>
          (dropLit "â–ª".data cs).orElse fun _ => dropLit "â€“".data cs
  match afterMark with
  | some (c :: r) => if isSpaceChar c then some r else none
  | _ => none

/-- `re.sub(r"^(marker)\s", "", bullet).strip()`. -/
def stripBullet (s : String) : String :=
  match bulletMarkerAt s.data with
  | some r => pyStrip (String.mk r)
  | none => pyStrip s

/-- The continuation `while` of `capture_bullets`: append following lines
to the current bullet until a new bullet marker or a heading-shaped line
(note: the `while` tests only the heading regex, without the word bound). -/
def extendBullet : List String → String → String
  | [], acc => acc
  | lk :: rest, acc =>
    if (bulletMarkerAt lk.data).isSome || headingShape lk then acc
    else extendBullet rest (if lk ≠ "" then acc ++ " " ++ lk else acc)

/-- The scan of `capture_bullets` over the lines after a heading, with the
remaining window size (`120`-line bound): stop at the next heading, collect
each bullet with its continuation lines. -/
def captureGo : List String → Nat → List String
  | _, 0 => []
  | [], _ => []
  | lj :: rest, w + 1 =>
    if isHeading lj then []
    else
      match bulletMarkerAt lj.data with
      | some _ => stripBullet (extendBullet rest lj) :: captureGo rest w
      | none => captureGo rest w

/-- Order-preserving deduplication (`dict.fromkeys`). -/
def dedupGo (seen : List String) : List String → List String
  | [] => []
  | x :: xs => if seen.contains x then dedupGo seen xs else x :: dedupGo (x :: seen) xs

/-- `capture_bullets` applied to the lines following a heading: capture,
deduplicate keeping first occurrences, and keep items of length 3–300. -/
def capture_bullets (rest : List String) : List String :=
  (dedupGo [] (captureGo rest 119)).filter fun c => 3 ≤ c.length && c.length ≤ 300

/-- `"checklist" / "eligibility" / "qualifications" / "criteria"` occurs in
the lowercased heading. -/
def hasChecklistKeyword (lh : String) : Bool :=
  containsSub lh "checklist" || containsSub lh "eligibility"
    || containsSub lh "qualifications" || containsSub lh "criteria"

/-- The checklist extraction: for each heading line whose lowercase form
has a checklist keyword, extend the checklist with the bullets captured
after it. -/
def collectChecklist : List String → List String
  | [] => []
  | l :: rest =>
    (if isHeading l && hasChecklistKeyword (lowerS l) then capture_bullets rest else [])
      ++ collectChecklist rest

/-- The line normalization of `extract_policy_checklist_and_rules`:
collapse space/tab runs, map the bullet-glyph (and mojibake) sequences to
`- `, split into lines and strip each. -/
def normalizedLines (policy_text : String) : List String :=
  let n1 := collapseSpTab policy_text
  let n2 := replaceStr (replaceStr (replaceStr (replaceStr n1 "•" "- ")
    "â€¢" "- ") "â–ª" "- ") "â€“" "- "
  (splitLines n2).map pyStrip

/-- The `joined = " ".join(lines)` text that the numeric rules are
searched in. -/
def joinedText (policy_text : String) : String :=
  String.intercalate " " (normalizedLines policy_text)

/-- `extract_policy_checklist_and_rules` of `app.py`: empty/blank text
yields the empty policy; otherwise normalize into lines, collect the
checklist under keyword headings, and extract the numeric rules from the
space-joined lines. -/
def extract_policy (policy_text : String) : Policy :=
  if pyStrip policy_text = "" then ⟨[], emptyRules⟩
  else ⟨collectChecklist (normalizedLines policy_text), extractRules (joinedText policy_text)⟩

/-- The escalation message constant of `app.py`. -/
def HUMAN_ESCALATION : String := "Would you like to speak to a human?"

/-- The fixed chat reply pointing at the eligibility form. -/
def FORM_REPLY : String :=
  "Please use the Eligibility Check form above. I can only assess using the policy checklist and the employee sheet."

/-- `read_pdf_text`: the text-extraction outcome of the external PDF
reader; a missing or unreadable document (`none`, the `except` branch or
the missing-file guard of the script) degrades to the empty string. -/
def read_pdf_text (extracted : Option String) : String := extracted.getD ""

/-- `has_any_policy` of the script: a nonempty checklist or any non-null
rule field. -/
def has_any_policy (p : Policy) : Bool :=
  !p.checklist.isEmpty
    || p.rules.min_tenure_months.isSome || p.rules.min_tenure_years.isSome
    || p.rules.max_loan_amount.isSome || p.rules.max_salary_multiple.isSome
    || p.rules.multiple_context.isSome || p.rules.max_percent_of_salary.isSome
    || p.rules.min_base_salary.isSome

/-- `policy = extract_policy_checklist_and_rules(policy_text) if
policy_text else {"checklist": [], "rules": {}}` of the script. -/
def policyOf (policy_text : String) : Policy :=
  if policy_text ≠ "" then extract_policy policy_text else ⟨[], emptyRules⟩

/-- Word characters of the regex `\b` boundary. -/
def isWordChar (c : Char) : Bool := c.isAlphanum || c = '_'

/-- `\b w \b` occurs starting at the current position, given whether the
preceding character is a word character. -/
def containsWordAux (w : List Char) : Bool → List Char → Bool
  | _, [] => false
  | prevWord, c :: cs =>
    (!prevWord &&
      (match dropLit w (c :: cs) with
       | some [] => true
       | some (d :: _) => !isWordChar d
       | none => false))
    || containsWordAux w (isWordChar c) cs

/-- `re.search(r"\b" + w + r"\b", s)` succeeds for a literal word `w`. -/
def containsWord (s w : String) : Bool := containsWordAux w.data false s.data

/-- The chat handler: messages mentioning one of the eligibility keywords
(`\b(check|eligible|eligibility|loan|apply|application)\b`, case
insensitive) get the fixed form-pointer reply; everything else gets the
escalation message. -/
def chat_reply (msg : String) : String :=
  let m := lowerS msg
  if containsWord m "check" || containsWord m "eligible" || containsWord m "eligibility"
      || containsWord m "loan" || containsWord m "apply" || containsWord m "application"
  then FORM_REPLY else HUMAN_ESCALATION

/-- One user interaction with the loaded app: the eligibility form submit
(selected name, requested amount — the `st.number_input` value, `0.0` by
default — and checklist checkbox answers), or a chat message. -/
inductive Interaction where
  | submit (name : String) (requested : Dec) (answers : List (String × Bool))
  | chat (msg : String)
deriving Repr, DecidableEq

/-- What the script renders for one interaction: the gate's escalation
error (`st.error(HUMAN_ESCALATION); st.stop()`), a rendered eligibility
verdict, a chat reply, or an uncaught exception (reachable only outside
the UI's constraints, e.g. a submitted name absent from the roster). -/
inductive Response where
  | gateEscalation
  | verdictShown (v : Verdict)
  | chatReply (s : String)
  | crash
deriving Repr, DecidableEq

/-- The `requested_amount if requested_amount > 0 else None` filter of the
submit handler. -/
def posOnly (r : Dec) : Option Dec := if Dec.lt ⟨0, 0⟩ r then some r else none

/-- One run of the app script on the load-time data and one interaction:
load the documents, and unless the policy text is nonempty, the roster
loads, and the policy has content, show the escalation error and stop;
otherwise handle the interaction. -/
def run_app (pdf : Option String) (roster : Option RawTable) (i : Interaction) : Response :=
  let policy_text := read_pdf_text pdf
  let policy := policyOf policy_text
  let employees := load_employees roster
  if policy_text ≠ "" ∧ employees.isSome ∧ has_any_policy policy = true then
    match i with
    | .submit name req answers =>
      match employees with
      | some rows =>
        if name = "" then .verdictShown (check_eligibility none (posOnly req) answers policy)
        else
          match rows.find? (fun e => e.name = name) with
          | some emp => .verdictShown (check_eligibility (some emp) (posOnly req) answers policy)
          | none => .crash
      | none => .crash
    | .chat msg => .chatReply (chat_reply msg)
  else .gateEscalation

/-! ### Bridge lemmas between `Dec` arithmetic and its rational value -/

theorem Dec.le_iff (a b : Dec) : (Dec.le a b = true) ↔ a.val ≤ b.val := by
  have h10a : (0 : ℚ) < (10 : ℚ) ^ a.exp := by positivity
  have h10b : (0 : ℚ) < (10 : ℚ) ^ b.exp := by positivity
  simp only [Dec.le, Dec.val, decide_eq_true_eq]
  constructor
  · intro h
    rw [div_le_div_iff₀ h10a h10b]
    exact_mod_cast h
  · intro h
    rw [div_le_div_iff₀ h10a h10b] at h
    exact_mod_cast h

theorem Dec.lt_iff (a b : Dec) : (Dec.lt a b = true) ↔ a.val < b.val := by
  have h10a : (0 : ℚ) < (10 : ℚ) ^ a.exp := by positivity
  have h10b : (0 : ℚ) < (10 : ℚ) ^ b.exp := by positivity
  simp only [Dec.lt, Dec.val, decide_eq_true_eq]
  constructor
  · intro h
    rw [div_lt_div_iff₀ h10a h10b]
    exact_mod_cast h
  · intro h
    rw [div_lt_div_iff₀ h10a h10b] at h
    exact_mod_cast h

theorem Dec.val_mul (a b : Dec) : (a.mul b).val = a.val * b.val := by
  simp only [Dec.mul, Dec.val]
  push_cast
  rw [pow_add, div_mul_div_comm]

theorem Dec.val_divPow10 (a : Dec) (k : Nat) : (a.divPow10 k).val = a.val / (10 : ℚ) ^ k := by
  simp only [Dec.divPow10, Dec.val]
  rw [pow_add, div_div]

theorem Dec.val_ofNat (n : Nat) : (Dec.ofNat n).val = (n : ℚ) := by
  simp [Dec.ofNat, Dec.val]

theorem pymin_val (m c : Dec) : (pymin m c).val = min m.val c.val := by
  unfold pymin
  split
  · next h => exact (min_eq_right ((Dec.lt_iff c m).1 h).le).symm
  · next h =>
    have : ¬ c.val < m.val := fun hc => h ((Dec.lt_iff c m).2 hc)
    exact (min_eq_left (not_lt.1 this)).symm

theorem pct_term_val (s p : Dec) : (s.mul (p.divPow10 2)).val = s.val * (p.val / 100) := by
  rw [Dec.val_mul, Dec.val_divPow10]
  norm_num

/-- Spec-side combination of two optional caps by minimum. -/
def optMinQ : Option ℚ → Option ℚ → Option ℚ
  | none, b => b
  | some a, none => some a
  | some a, some b => some (min a b)

/-- The rational value of `compute_amount_cap`: the minimum of all set
caps among the absolute cap, the months-of-salary multiple times salary,
and the percentage of salary. -/
theorem compute_amount_cap_val (r : Rules) (s : Dec) :
    (compute_amount_cap (some s) r).map Dec.val =
      optMinQ (r.max_loan_amount.map Dec.val)
        (optMinQ
          (if r.multiple_context = some "months"
            then r.max_salary_multiple.map fun m => m.val * s.val else none)
          (r.max_percent_of_salary.map fun p => s.val * (p.val / 100))) := by
  rcases r with ⟨mtm, mty, mla, msm, mc, mps, mbs⟩
  have h100 : (10 : ℚ) ^ (2 : Nat) = 100 := by norm_num
  rcases mc with _ | ctx
  · cases mla <;> cases msm <;> cases mps <;>
      simp_all [compute_amount_cap, optMinQ, pymin_val, Dec.val_mul, Dec.val_divPow10, min_assoc]
  · by_cases hc : ctx = "months"
    · subst hc
      cases mla <;> cases msm <;> cases mps <;>
        simp_all [compute_amount_cap, optMinQ, pymin_val, Dec.val_mul, Dec.val_divPow10, min_assoc]
    · cases mla <;> cases msm <;> cases mps <;>
        simp_all [compute_amount_cap, optMinQ, pymin_val, Dec.val_mul, Dec.val_divPow10, min_assoc]

/-! ### Helper lemmas about the evaluator -/

theorem checklistCheck_all_true (answers : List (String × Bool)) (items : List String)
    (h : ∀ it ∈ items, answers.lookup it = some true) :
    checklistCheck answers items = none := by
  induction items with
  | nil => rfl
  | cons x xs ih =>
    have hx := h x (List.mem_cons_self x xs)
    simp only [checklistCheck, hx]
    exact ih fun it hit => h it (List.mem_cons_of_mem x hit)

theorem checklistCheck_first_missing (answers : List (String × Bool)) (pre : List String)
    (item : String) (post : List String)
    (hpre : ∀ x ∈ pre, answers.lookup x = some true)
    (hmiss : answers.lookup item = none) :
    checklistCheck answers (pre ++ item :: post) = some .escalate := by
  induction pre with
  | nil => simp [checklistCheck, hmiss]
  | cons x xs ih =>
    have hx := hpre x (List.mem_cons_self x xs)
    simp only [List.cons_append, checklistCheck, hx]
    exact ih fun y hy => hpre y (List.mem_cons_of_mem x hy)

theorem checklistCheck_first_false (answers : List (String × Bool)) (pre : List String)
    (item : String) (post : List String)
    (hpre : ∀ x ∈ pre, answers.lookup x = some true)
    (hfalse : answers.lookup item = some false) :
    checklistCheck answers (pre ++ item :: post)
      = some (.notEligible "checklist" (some item)) := by
  induction pre with
  | nil => simp [checklistCheck, hfalse]
  | cons x xs ih =>
    have hx := hpre x (List.mem_cons_self x xs)
    simp only [List.cons_append, checklistCheck, hx]
    exact ih fun y hy => hpre y (List.mem_cons_of_mem x hy)

theorem check_eligibility_gates_pass (nm k : String) (s : Dec) (t : Int) (pol : Policy)
    (answers : List (String × Bool)) (req : Option Dec)
    (h1 : tenureMonthsLow t pol.rules = false)
    (h2 : tenureYearsLow t pol.rules = false)
    (h3 : salaryLow s pol.rules = false) :
    check_eligibility (some ⟨nm, k, some s, some t⟩) req answers pol
      = match checklistCheck answers pol.checklist with
        | some v => v
        | none => amountStage s req pol.rules := by
  simp [check_eligibility, h1, h2, h3]

/-! ### The claims -/

/-- C1, counterexample to the claim as stated: with checklist
`["a", "b"]` and answers `{"a": False}`, the item `"b"` is absent from the
answers, yet the verdict is `NotEligible(checklist, "a")`, not `Escalate`:
the first checklist item that fails decides, in list order. -/
theorem C1_counterexample :
    (([("a", false)] : List (String × Bool)).lookup "b" = none)
    ∧ check_eligibility (some ⟨"A", "a", some ⟨1000, 0⟩, some 12⟩) none [("a", false)]
        ⟨["a", "b"], emptyRules⟩ = .notEligible "checklist" (some "a")
    ∧ (Verdict.notEligible "checklist" (some "a") ≠ .escalate) := by decide

/-- C1 (amended): for a complete employee record passing the tenure and
salary gates, the checklist is scanned in order and the first item not
answered `True` decides: if that item is absent from the answers the
verdict is Escalate; if it is present with a non-`True` value the verdict
is NotEligible(checklist) naming it; and if every item is answered `True`
the checklist gate does not block (evaluation proceeds to the amount
stage). -/
theorem C1_checklist_gate (nm k : String) (s : Dec) (t : Int) (pol : Policy)
    (answers : List (String × Bool)) (req : Option Dec)
    (h1 : tenureMonthsLow t pol.rules = false)
    (h2 : tenureYearsLow t pol.rules = false)
    (h3 : salaryLow s pol.rules = false) :
    (∀ pre item post, pol.checklist = pre ++ item :: post →
        (∀ x ∈ pre, answers.lookup x = some true) →
        answers.lookup item = none →
        check_eligibility (some ⟨nm, k, some s, some t⟩) req answers pol = .escalate)
    ∧ (∀ pre item post, pol.checklist = pre ++ item :: post →
        (∀ x ∈ pre, answers.lookup x = some true) →
        answers.lookup item = some false →
        check_eligibility (some ⟨nm, k, some s, some t⟩) req answers pol
          = .notEligible "checklist" (some item))
    ∧ ((∀ it ∈ pol.checklist, answers.lookup it = some true) →
        check_eligibility (some ⟨nm, k, some s, some t⟩) req answers pol
          = amountStage s req pol.rules) := by
  refine ⟨?_, ?_, ?_⟩
  · intro pre item post hsplit hpre hmiss
    rw [check_eligibility_gates_pass nm k s t pol answers req h1 h2 h3, hsplit,
      checklistCheck_first_missing answers pre item post hpre hmiss]
  · intro pre item post hsplit hpre hfalse
    rw [check_eligibility_gates_pass nm k s t pol answers req h1 h2 h3, hsplit,
      checklistCheck_first_false answers pre item post hpre hfalse]
  · intro hall
    rw [check_eligibility_gates_pass nm k s t pol answers req h1 h2 h3,
      checklistCheck_all_true answers pol.checklist hall]

/-- Witness for C1: a concrete application of the amended theorem —
first item answered `True`, second item absent, verdict Escalate. -/
theorem C1_checklist_gate_witness :
    check_eligibility (some ⟨"A", "a", some ⟨1000, 0⟩, some 12⟩) none [("a", true)]
      ⟨["a", "b"], emptyRules⟩ = .escalate :=
  (C1_checklist_gate "A" "a" ⟨1000, 0⟩ 12 ⟨["a", "b"], emptyRules⟩ [("a", true)] none
    (by decide) (by decide) (by decide)).1 ["a"] "b" [] rfl (by decide) (by decide)

/-- C2: for an employee record and policy passing the tenure, salary-floor
and checklist gates: with no requested amount the amount check is skipped
and the verdict is Eligible; with a requested amount, when no cap is set
the verdict is Escalate, and otherwise the verdict is
ConditionallyEligible(cap) exactly when the request exceeds the cap, where
the cap is the minimum of all set caps among the absolute
`max_loan_amount`, `max_salary_multiple * salary` (only under the
`"months"` context), and `max_percent_of_salary * salary / 100`. In
particular (Scenario D), `max_loan_amount = 100000`,
`max_percent_of_salary = 50`, salary `300000`, requested `200000` gives
cap `min(100000, 150000) = 100000` and verdict
ConditionallyEligible(100000). -/
theorem C2_amount_check (nm k : String) (s : Dec) (t : Int) (pol : Policy)
    (answers : List (String × Bool))
    (h1 : tenureMonthsLow t pol.rules = false)
    (h2 : tenureYearsLow t pol.rules = false)
    (h3 : salaryLow s pol.rules = false)
    (hck : checklistCheck answers pol.checklist = none) :
    (check_eligibility (some ⟨nm, k, some s, some t⟩) none answers pol = .eligible)
    ∧ (∀ req, compute_amount_cap (some s) pol.rules = none →
        check_eligibility (some ⟨nm, k, some s, some t⟩) (some req) answers pol = .escalate)
    ∧ (∀ req cap, compute_amount_cap (some s) pol.rules = some cap →
        check_eligibility (some ⟨nm, k, some s, some t⟩) (some req) answers pol
          = if Dec.lt cap req then .conditionallyEligible cap else .eligible)
    ∧ ((compute_amount_cap (some s) pol.rules).map Dec.val
        = optMinQ (pol.rules.max_loan_amount.map Dec.val)
            (optMinQ
              (if pol.rules.multiple_context = some "months"
                then pol.rules.max_salary_multiple.map fun m => m.val * s.val else none)
              (pol.rules.max_percent_of_salary.map fun p => s.val * (p.val / 100))))
    ∧ (check_eligibility (some ⟨"D", "d", some ⟨300000, 0⟩, some 36⟩) (some ⟨200000, 0⟩) []
          ⟨[], { emptyRules with max_loan_amount := some ⟨100000, 0⟩,
                                 max_percent_of_salary := some ⟨50, 0⟩ }⟩
          = .conditionallyEligible ⟨100000, 0⟩
        ∧ Dec.val ⟨100000, 0⟩ = 100000
        ∧ min (100000 : ℚ) 150000 = 100000) := by
  refine ⟨?_, ?_, ?_, compute_amount_cap_val pol.rules s, ?_, ?_, ?_⟩
  · rw [check_eligibility_gates_pass nm k s t pol answers none h1 h2 h3, hck]
    rfl
  · intro req hnone
    rw [check_eligibility_gates_pass nm k s t pol answers (some req) h1 h2 h3, hck]
    simp [amountStage, hnone]
  · intro req cap hcap
    rw [check_eligibility_gates_pass nm k s t pol answers (some req) h1 h2 h3, hck]
    simp [amountStage, hcap]
  · decide
  · norm_num [Dec.val]
  · norm_num

/-- Witness for C2: Scenario-D data with no requested amount is Eligible. -/
theorem C2_amount_check_witness :
    check_eligibility (some ⟨"D", "d", some ⟨300000, 0⟩, some 36⟩) none []
      ⟨[], { emptyRules with max_loan_amount := some ⟨100000, 0⟩,
                             max_percent_of_salary := some ⟨50, 0⟩ }⟩ = .eligible :=
  (C2_amount_check "D" "d" ⟨300000, 0⟩ 36
    ⟨[], { emptyRules with max_loan_amount := some ⟨100000, 0⟩,
                           max_percent_of_salary := some ⟨50, 0⟩ }⟩
    [] (by decide) (by decide) (by decide) (by decide)).1

/-- C3: the months-of-salary safety gate. The extractor sets
`multiple_context = "months"` if and only if it sets
`max_salary_multiple`; the multiplier is set only when the normalized
joined text matches the months-of-salary pattern somewhere; a policy text
stating only `maximum 5% of salary` sets the percentage rule but neither
the multiplier nor the context; and `compute_amount_cap` includes the
multiple-times-salary term only when `multiple_context` equals
`"months"` (removing the multiplier changes nothing otherwise). -/
theorem C3_months_safety :
    (∀ text, (extract_policy text).rules.multiple_context = some "months"
        ↔ (extract_policy text).rules.max_salary_multiple ≠ none)
    ∧ (∀ text, (extract_policy text).rules.max_salary_multiple ≠ none →
        multMatches (lowerS (joinedText text)) ≠ [])
    ∧ (extract_policy "maximum 5% of salary"
        = ⟨[], { emptyRules with max_percent_of_salary := some ⟨5, 0⟩ }⟩)
    ∧ (∀ r sal, r.multiple_context ≠ some "months" →
        compute_amount_cap sal r
          = compute_amount_cap sal { r with max_salary_multiple := none }) := by
  have hmm : ∀ text, pyStrip text ≠ "" → (extract_policy text).rules.max_salary_multiple
      = (multMatches (lowerS (joinedText text))).getLast? := by
    intro text he
    simp [extract_policy, he, extractRules, multMatches]
  have hcc : ∀ text, pyStrip text ≠ "" → (extract_policy text).rules.multiple_context
      = (if (multMatches (lowerS (joinedText text))).isEmpty then none else some "months") := by
    intro text he
    simp [extract_policy, he, extractRules, multMatches]
  refine ⟨?_, ?_, by decide, ?_⟩
  · intro text
    by_cases he : pyStrip text = ""
    · simp [extract_policy, he, emptyRules]
    · rw [hmm text he, hcc text he]
      cases hl : multMatches (lowerS (joinedText text)) with
      | nil => simp
      | cons x xs => simp [List.getLast?_isSome]
  · intro text hset
    by_cases he : pyStrip text = ""
    · simp [extract_policy, he, emptyRules] at hset
    · rw [hmm text he] at hset
      intro hnil
      rw [hnil] at hset
      exact hset rfl
  · intro r sal hmc
    rcases r with ⟨mtm, mty, mla, msm, mc, mps, mbs⟩
    rcases mc with _ | ctx
    · cases msm <;> cases sal <;> rfl
    · by_cases hc : ctx = "months"
      · exact absurd (by rw [hc]) hmc
      · cases msm <;> cases sal <;> simp [compute_amount_cap, hc]

/-- Witness for C3: a context other than `"months"` makes the multiplier
inert in `compute_amount_cap`. -/
theorem C3_months_safety_witness :
    compute_amount_cap (some ⟨100, 0⟩)
        { emptyRules with multiple_context := some "weeks",
                          max_salary_multiple := some ⟨3, 0⟩ }
      = compute_amount_cap (some ⟨100, 0⟩)
        { { emptyRules with multiple_context := some "weeks",
                            max_salary_multiple := some ⟨3, 0⟩ }
          with max_salary_multiple := none } :=
  C3_months_safety.2.2.2
    { emptyRules with multiple_context := some "weeks",
                      max_salary_multiple := some ⟨3, 0⟩ }
    (some ⟨100, 0⟩) (by decide)

/-- C4: for a complete employee record, if `min_tenure_months` is set and
the tenure is below it the verdict is NotEligible(tenure) regardless of
checklist answers or requested amount; independently, if
`min_tenure_years` is set and the tenure is below `round(years * 12)`
months the verdict is NotEligible(tenure); either check can fire when
both rules are set. -/
theorem C4_tenure_gate (nm k : String) (s : Dec) (t : Int) (pol : Policy)
    (answers : List (String × Bool)) (req : Option Dec) :
    (∀ mt, pol.rules.min_tenure_months = some mt → t < mt →
        check_eligibility (some ⟨nm, k, some s, some t⟩) req answers pol
          = .notEligible "tenure" none)
    ∧ (∀ ty, pol.rules.min_tenure_years = some ty →
        t < (ty.mul (Dec.ofNat 12)).pyRound →
        check_eligibility (some ⟨nm, k, some s, some t⟩) req answers pol
          = .notEligible "tenure" none) := by
  constructor
  · intro mt hmt hlt
    have h1 : tenureMonthsLow t pol.rules = true := by
      simp [tenureMonthsLow, hmt, hlt]
    simp [check_eligibility, h1]
  · intro ty hty hlt
    have h2 : tenureYearsLow t pol.rules = true := by
      simp [tenureYearsLow, hty, hlt]
    by_cases h1 : tenureMonthsLow t pol.rules = true
    · simp [check_eligibility, h1]
    · simp [check_eligibility, h1, h2]

/-- The keys present in the column dict are exactly the lowered-stripped
headers: one insertion step preserves a key predicate up to the inserted
key. -/
theorem colsDictStep_exists (p : String → Bool) (acc : List (String × String)) (c : String) :
    (∃ kv ∈ colsDictStep acc c, p kv.1 = true)
      ↔ (∃ kv ∈ acc, p kv.1 = true) ∨ p (pyStrip (lowerS c)) = true := by
  simp only [colsDictStep]
  split
  · next hany =>
    simp only [List.mem_map]
    constructor
    · rintro ⟨kv, ⟨q, hq, rfl⟩, hp⟩
      by_cases hk : q.1 = pyStrip (lowerS c)
      · rw [if_pos hk] at hp
        exact Or.inl ⟨q, hq, by rw [hk]; exact hp⟩
      · rw [if_neg hk] at hp
        exact Or.inl ⟨q, hq, hp⟩
    · intro hor
      have hmk : ∀ q, q ∈ acc → p q.1 = true →
          ∃ kv, (∃ r ∈ acc, (if r.1 = pyStrip (lowerS c)
              then (pyStrip (lowerS c), c) else r) = kv) ∧ p kv.1 = true := by
        intro q hq hp
        refine ⟨if q.1 = pyStrip (lowerS c) then (pyStrip (lowerS c), c) else q,
          ⟨q, hq, rfl⟩, ?_⟩
        by_cases hk : q.1 = pyStrip (lowerS c)
        · rw [if_pos hk]
          rw [hk] at hp
          exact hp
        · rw [if_neg hk]
          exact hp
      rcases hor with ⟨q, hq, hp⟩ | hp
      · exact hmk q hq hp
      · rw [List.any_eq_true] at hany
        obtain ⟨q, hq, hq1⟩ := hany
        have hqk := of_decide_eq_true hq1
        exact hmk q hq (by rw [hqk]; exact hp)
  · next hany =>
    constructor
    · rintro ⟨kv, hkv, hp⟩
      rw [List.mem_append, List.mem_singleton] at hkv
      rcases hkv with hkv | rfl
      · exact Or.inl ⟨kv, hkv, hp⟩
      · exact Or.inr hp
    · rintro (⟨kv, hkv, hp⟩ | hp)
      · exact ⟨kv, List.mem_append_left _ hkv, hp⟩
      · exact ⟨(pyStrip (lowerS c), c), List.mem_append_right _ (List.mem_singleton_self _), hp⟩

/-- A key predicate holds somewhere in the folded column dict iff it holds
on some lowered-stripped header. -/
theorem foldl_colsDict_exists (p : String → Bool) :
    ∀ (cols : List String) (acc : List (String × String)),
      (∃ kv ∈ cols.foldl colsDictStep acc, p kv.1 = true)
        ↔ (∃ kv ∈ acc, p kv.1 = true) ∨ ∃ c ∈ cols, p (pyStrip (lowerS c)) = true
  | [], acc => by simp
  | c :: cols, acc => by
    rw [List.foldl_cons, foldl_colsDict_exists p cols (colsDictStep acc c),
      colsDictStep_exists p acc c]
    simp only [List.mem_cons]
    constructor
    · rintro ((h | h) | ⟨d, hd, hp⟩)
      · exact Or.inl h
      · exact Or.inr ⟨c, Or.inl rfl, h⟩
      · exact Or.inr ⟨d, Or.inr hd, hp⟩
    · rintro (h | ⟨d, (rfl | hd), hp⟩)
      · exact Or.inl (Or.inl h)
      · exact Or.inl (Or.inr hp)
      · exact Or.inr ⟨d, hd, hp⟩

/-- C7, counterexample to the claim as stated: the header `Gross Salary`
contains `"salary"` (case-insensitively) but resolves no salary column —
the code requires both `"salary"` and `"base"` as substrings, or an exact
alias — so the whole roster is rejected. -/
theorem C7_counterexample :
    containsSub (pyStrip (lowerS "Gross Salary")) "salary" = true
    ∧ load_employees (some ⟨["Name", "Gross Salary", "Tenure"], []⟩) = none := by decide

/-- C7 (amended): the normalizer resolves the three column roles over the
lowered-stripped headers — the name role by the exact aliases
`name`/`employee`/`employee name`, the salary role by a header containing
both `"salary"` and `"base"` or exactly one of
`salary`/`base salary`/`current base salary`, and the tenure role by a
header containing `"tenure"`, `"years"` or `"months"` — and it returns a
usable dataset iff all three roles resolve (`None` whenever any cannot). -/
theorem C7_column_resolution (tbl : RawTable) :
    ((load_employees (some tbl)).isSome = true ↔
      ((∃ c ∈ tbl.cols, nameKeyP (pyStrip (lowerS c)) = true)
        ∧ (∃ c ∈ tbl.cols, salaryKeyP (pyStrip (lowerS c)) = true)
        ∧ (∃ c ∈ tbl.cols, tenureKeyP (pyStrip (lowerS c)) = true)))
    ∧ (∀ k, salaryKeyP k = true ↔
        ((containsSub k "salary" = true ∧ containsSub k "base" = true)
          ∨ k = "salary" ∨ k = "base salary" ∨ k = "current base salary"))
    ∧ (∀ k, tenureKeyP k = true ↔
        (containsSub k "tenure" = true ∨ containsSub k "years" = true
          ∨ containsSub k "months" = true)) := by
  have hfind : ∀ p : String → Bool, (findCol (colsDict tbl.cols) p).isSome = true
      ↔ ∃ c ∈ tbl.cols, p (pyStrip (lowerS c)) = true := by
    intro p
    unfold findCol colsDict
    rw [Option.isSome_map']
    simp only [List.find?_isSome]
    simpa using foldl_colsDict_exists p tbl.cols []
  refine ⟨?_, ?_, ?_⟩
  · rw [← hfind nameKeyP, ← hfind salaryKeyP, ← hfind tenureKeyP]
    rcases hn : findCol (colsDict tbl.cols) nameKeyP with _ | nc <;>
      rcases hs : findCol (colsDict tbl.cols) salaryKeyP with _ | sc <;>
      rcases ht : findCol (colsDict tbl.cols) tenureKeyP with _ | tc <;>
        simp [load_employees, hn, hs, ht]
  · intro k
    simp [salaryKeyP, Bool.or_eq_true, Bool.and_eq_true, decide_eq_true_eq, or_assoc]
  · intro k
    simp [tenureKeyP, Bool.or_eq_true, or_assoc]

/-- C6, counterexample to the claim as stated: in a policy text where the
percentage pattern matches twice (`50%` then `30%`), the extractor assigns
the FIRST match (`re.search`), `50`, to `max_percent_of_salary` — not the
last match, `30`. -/
theorem C6_counterexample :
    pctMatches (lowerS (joinedText "maximum 50% of salary maximum 30% of salary"))
        = [⟨50, 0⟩, ⟨30, 0⟩]
    ∧ (extract_policy "maximum 50% of salary maximum 30% of salary").rules.max_percent_of_salary
        = some ⟨50, 0⟩
    ∧ (pctMatches (lowerS (joinedText "maximum 50% of salary maximum 30% of salary"))).getLast?
        = some ⟨30, 0⟩
    ∧ ((⟨50, 0⟩ : Dec) ≠ ⟨30, 0⟩) := by decide

/-- C6 (amended): when the salary-multiple pattern matches several times,
the LAST match in source order wins for `max_salary_multiple` (the
`re.finditer` assignment loop); when the percentage pattern matches
several times, the FIRST match in source order wins for
`max_percent_of_salary` (`re.search`); each pattern is independent.
Demonstrated on a text with multiplier matches `3` then `6`, where the
extracted multiplier is `6`. -/
theorem C6_match_order :
    (∀ joined l v, multMatches (lowerS joined) = l ++ [v] →
        (extractRules joined).max_salary_multiple = some v)
    ∧ (∀ joined v l, pctMatches (lowerS joined) = v :: l →
        (extractRules joined).max_percent_of_salary = some v)
    ∧ (extract_policy
        "up to 3 months of salary and up to 6 months of salary").rules.max_salary_multiple
        = some ⟨6, 0⟩
    ∧ multMatches (lowerS (joinedText "up to 3 months of salary and up to 6 months of salary"))
        = [⟨3, 0⟩, ⟨6, 0⟩] := by
  refine ⟨?_, ?_, by decide, by decide⟩
  · intro joined l v hl
    have hfield : (extractRules joined).max_salary_multiple
        = (multMatches (lowerS joined)).getLast? := by
      simp [extractRules, multMatches]
    rw [hfield, hl, List.getLast?_concat]
  · intro joined v l hl
    have hfield : (extractRules joined).max_percent_of_salary
        = (pctMatches (lowerS joined)).head? := by
      simp [extractRules, pctMatches]
    rw [hfield, hl]
    rfl

/-- Witness for C6: the two general match-order statements applied to the
concrete two-match texts. -/
theorem C6_match_order_witness :
    (extractRules "up to 3 months of salary and up to 6 months of salary").max_salary_multiple
        = some ⟨6, 0⟩
    ∧ (extractRules "maximum 50% of salary maximum 30% of salary").max_percent_of_salary
        = some ⟨50, 0⟩ :=
  ⟨C6_match_order.1 _ [⟨3, 0⟩] ⟨6, 0⟩ (by decide),
   C6_match_order.2.1 _ ⟨50, 0⟩ [⟨30, 0⟩] (by decide)⟩

/-- A number equal to its own truncation has fractional part `0`, so it
is within the `1e-9` tolerance of `tenure_to_months`. -/
theorem Dec.fracBeyondTol_int (v : Dec) (h : v.val = (v.pyInt : ℚ)) :
    v.fracBeyondTol = false := by
  have hnum : v.num = v.pyInt * 10 ^ v.exp := by
    have hd0 : ((10 : ℚ)) ^ v.exp ≠ 0 := by positivity
    rw [Dec.val] at h
    rw [div_eq_iff hd0] at h
    exact_mod_cast h
  simp only [Dec.fracBeyondTol]
  rw [hnum, sub_self]
  norm_num

/-- C8, counterexample to the claim as stated: the bare value
`5.0000000001` satisfies `0 < v ≤ 10` and has a (nonzero) fractional
part, yet `tenure_to_months` returns `int(v) = 5` months, not
`round(v * 12) = 60`: the code treats fractional parts up to `1e-9` as
integral. -/
theorem C8_counterexample :
    parseFloat (normTenure "5.0000000001") = some ⟨50000000001, 10⟩
    ∧ Dec.lt (Dec.ofNat 0) ⟨50000000001, 10⟩ = true
    ∧ Dec.le ⟨50000000001, 10⟩ (Dec.ofNat 10) = true
    ∧ ((50000000001 : Int) % 10 ^ 10 ≠ 0)
    ∧ tenure_to_months (some "5.0000000001") = some 5
    ∧ ((⟨50000000001, 10⟩ : Dec).mul (Dec.ofNat 12)).pyRound = 60
    ∧ ((5 : Int) ≠ 60) := by decide

/-- C8 (amended): tenure coercion maps a string with a years component, a
months component, or both, to total months (`"2 years 3 months"` gives
`27`); maps a bare number `v` to `round(v * 12)` months exactly when
`0 < v ≤ 10` and the fractional part of `v` exceeds the `1e-9` tolerance,
and to `int(v)` months otherwise; and returns null for any value matching
no pattern. -/
theorem C8_tenure_coercion :
    (tenure_to_months (some "2 years 3 months") = some 27)
    ∧ (∀ raw y m, findYears (normTenure raw) = some y →
        findMonths (normTenure raw) = some m →
        tenure_to_months (some raw)
          = some ((y.mul (Dec.ofNat 12)).add (Dec.ofNat m)).pyRound)
    ∧ (∀ raw y, findYears (normTenure raw) = some y →
        findMonths (normTenure raw) = none →
        tenure_to_months (some raw) = some (y.mul (Dec.ofNat 12)).pyRound)
    ∧ (∀ raw m, findYears (normTenure raw) = none →
        findMonths (normTenure raw) = some m →
        tenure_to_months (some raw) = some ((m : Int)))
    ∧ (∀ raw v, findYears (normTenure raw) = none →
        findMonths (normTenure raw) = none →
        parseFloat (normTenure raw) = some v →
        tenure_to_months (some raw)
          = some (if Dec.lt (Dec.ofNat 0) v && Dec.le v (Dec.ofNat 10) && v.fracBeyondTol
                  then (v.mul (Dec.ofNat 12)).pyRound else v.pyInt))
    ∧ (∀ raw, findYears (normTenure raw) = none →
        findMonths (normTenure raw) = none →
        parseFloat (normTenure raw) = none →
        tenure_to_months (some raw) = none) := by
  refine ⟨by decide, ?_, ?_, ?_, ?_, ?_⟩
  · intro raw y m hy hm
    simp [tenure_to_months, hy, hm]
  · intro raw y hy hm
    simp [tenure_to_months, hy, hm]
  · intro raw m hy hm
    simp [tenure_to_months, hy, hm]
  · intro raw v hy hm hf
    simp only [tenure_to_months, hy, hm, hf]
    split <;> rfl
  · intro raw hy hm hf
    simp [tenure_to_months, hy, hm, hf]

/-- Witness for C8: a concrete years-and-months string through the
years/months branch of the amended theorem. -/
theorem C8_tenure_coercion_witness :
    tenure_to_months (some "1 year 2 months")
      = some (((⟨1, 0⟩ : Dec).mul (Dec.ofNat 12)).add (Dec.ofNat 2)).pyRound :=
  C8_tenure_coercion.2.1 "1 year 2 months" ⟨1, 0⟩ 2 (by decide) (by decide)

/-- C10: a bare numeric tenure `v` outside the years heuristic (`v ≤ 0`,
or `v > 10`, or `v` an integer) yields `int(v)` months — truncation toward
zero; in particular a bare `"10.5"` yields `10` months, `"9.5"` yields
`114` months, and a negative bare number yields a negative tenure rather
than being marked unusable. -/
theorem C10_bare_number :
    (∀ raw v, findYears (normTenure raw) = none →
        findMonths (normTenure raw) = none →
        parseFloat (normTenure raw) = some v →
        (v.val ≤ 0 ∨ 10 < v.val ∨ v.val = (v.pyInt : ℚ)) →
        tenure_to_months (some raw) = some v.pyInt)
    ∧ tenure_to_months (some "10.5") = some 10
    ∧ tenure_to_months (some "9.5") = some 114
    ∧ tenure_to_months (some "-2.5") = some (-2) := by
  refine ⟨?_, by decide, by decide, by decide⟩
  intro raw v hy hm hf hout
  rcases hout with hout | hout | hout
  · have hlt : Dec.lt (Dec.ofNat 0) v = false := by
      cases hb : Dec.lt (Dec.ofNat 0) v
      · rfl
      · have h0 := (Dec.lt_iff _ _).1 hb
        rw [Dec.val_ofNat] at h0
        norm_num at h0
        exact absurd h0 (not_lt.2 hout)
    simp [tenure_to_months, hy, hm, hf, hlt]
  · have hle : Dec.le v (Dec.ofNat 10) = false := by
      cases hb : Dec.le v (Dec.ofNat 10)
      · rfl
      · have h0 := (Dec.le_iff _ _).1 hb
        rw [Dec.val_ofNat] at h0
        norm_num at h0
        exact absurd h0 (not_le.2 hout)
    simp [tenure_to_months, hy, hm, hf, hle]
  · have hfr := Dec.fracBeyondTol_int v hout
    simp [tenure_to_months, hy, hm, hf, hfr]

/-- Witness for C10: the bare integer `"12"` is outside the heuristic
(`12 > 10`) and coerces to `int(12) = 12` months. -/
theorem C10_bare_number_witness :
    tenure_to_months (some "12") = some (Dec.pyInt ⟨12, 0⟩) :=
  C10_bare_number.1 "12" ⟨12, 0⟩ (by decide) (by decide) (by decide)
    (Or.inr (Or.inl (by norm_num [Dec.val])))

/-- `pymin` is monotone in both arguments with respect to the rational
value. -/
theorem pymin_mono {a1 a2 b1 b2 : Dec} (ha : a1.val ≤ a2.val) (hb : b1.val ≤ b2.val) :
    (pymin a1 b1).val ≤ (pymin a2 b2).val := by
  rw [pymin_val, pymin_val]
  exact min_le_min ha hb

/-- C9, counterexample to the claim as stated: quantified over EVERY rules
struct, monotonicity fails — with `max_salary_multiple = -1` (under the
`"months"` context) the multiple-based cap decreases as the salary grows
from `0` to `1`. -/
theorem C9_counterexample :
    compute_amount_cap (some ⟨0, 0⟩)
        { emptyRules with multiple_context := some "months",
                          max_salary_multiple := some ⟨-1, 0⟩ } = some ⟨0, 0⟩
    ∧ compute_amount_cap (some ⟨1, 0⟩)
        { emptyRules with multiple_context := some "months",
                          max_salary_multiple := some ⟨-1, 0⟩ } = some ⟨-1, 0⟩
    ∧ Dec.le ⟨0, 0⟩ ⟨1, 0⟩ = true
    ∧ Dec.lt ⟨-1, 0⟩ ⟨0, 0⟩ = true := by decide

/-- C9 (amended): for every rules struct whose set multiplier and
percentage are nonnegative (as the extractor produces — its regexes
capture unsigned numbers), `compute_amount_cap` is monotone in
`base_salary`: a larger salary never decreases the computed cap, and when
only the absolute `max_loan_amount` can contribute the cap does not
depend on the salary at all. -/
theorem C9_cap_monotone (r : Rules) (s1 s2 : Dec)
    (hm : ∀ m, r.max_salary_multiple = some m → 0 ≤ m.val)
    (hp : ∀ p, r.max_percent_of_salary = some p → 0 ≤ p.val)
    (hs : s1.val ≤ s2.val) :
    (∀ c1, compute_amount_cap (some s1) r = some c1 →
        ∃ c2, compute_amount_cap (some s2) r = some c2 ∧ c1.val ≤ c2.val)
    ∧ ((r.multiple_context = some "months" → r.max_salary_multiple = none) →
        r.max_percent_of_salary = none →
        compute_amount_cap (some s1) r = compute_amount_cap (some s2) r) := by
  have hmul : ∀ m, r.max_salary_multiple = some m → (m.mul s1).val ≤ (m.mul s2).val := by
    intro m hm0
    rw [Dec.val_mul, Dec.val_mul]
    exact mul_le_mul_of_nonneg_left hs (hm m hm0)
  have hpct : ∀ p, r.max_percent_of_salary = some p →
      (s1.mul (p.divPow10 2)).val ≤ (s2.mul (p.divPow10 2)).val := by
    intro p hp0
    rw [pct_term_val, pct_term_val]
    exact mul_le_mul_of_nonneg_right hs (div_nonneg (hp p hp0) (by norm_num))
  constructor
  · intro c1 hc1
    rcases r with ⟨mtm, mty, mla, msm, mc, mps, mbs⟩
    rcases mc with _ | ctx
    · rcases mla with _ | a <;> rcases mps with _ | p
      · exact Option.noConfusion hc1
      · injection hc1 with h1
        subst h1
        exact ⟨_, rfl, hpct p rfl⟩
      · injection hc1 with h1
        subst h1
        exact ⟨_, rfl, le_rfl⟩
      · injection hc1 with h1
        subst h1
        exact ⟨_, rfl, pymin_mono le_rfl (hpct p rfl)⟩
    · by_cases hc : ctx = "months"
      · subst hc
        rcases msm with _ | m
        · rcases mla with _ | a <;> rcases mps with _ | p
          · exact Option.noConfusion hc1
          · injection hc1 with h1
            subst h1
            exact ⟨_, rfl, hpct p rfl⟩
          · injection hc1 with h1
            subst h1
            exact ⟨_, rfl, le_rfl⟩
          · injection hc1 with h1
            subst h1
            exact ⟨_, rfl, pymin_mono le_rfl (hpct p rfl)⟩
        · rcases mla with _ | a <;> rcases mps with _ | p
          · injection hc1 with h1
            subst h1
            exact ⟨_, rfl, hmul m rfl⟩
          · injection hc1 with h1
            subst h1
            exact ⟨_, rfl, pymin_mono (hmul m rfl) (hpct p rfl)⟩
          · injection hc1 with h1
            subst h1
            exact ⟨_, rfl, pymin_mono le_rfl (hmul m rfl)⟩
          · injection hc1 with h1
            subst h1
            exact ⟨_, rfl, pymin_mono (pymin_mono le_rfl (hmul m rfl)) (hpct p rfl)⟩
      · rcases msm with _ | m
        · rcases mla with _ | a <;> rcases mps with _ | p
          · exact Option.noConfusion hc1
          · injection hc1 with h1
            subst h1
            exact ⟨_, rfl, hpct p rfl⟩
          · injection hc1 with h1
            subst h1
            exact ⟨_, rfl, le_rfl⟩
          · injection hc1 with h1
            subst h1
            exact ⟨_, rfl, pymin_mono le_rfl (hpct p rfl)⟩
        · have e1 : ∀ s : Dec,
              compute_amount_cap (some s) ⟨mtm, mty, mla, some m, some ctx, mps, mbs⟩
                = compute_amount_cap (some s) ⟨mtm, mty, mla, none, some ctx, mps, mbs⟩ := by
            intro s
            simp [compute_amount_cap, hc]
          rw [e1 s1] at hc1
          rw [show (∃ c2, compute_amount_cap (some s2)
                ⟨mtm, mty, mla, some m, some ctx, mps, mbs⟩ = some c2 ∧ c1.val ≤ c2.val)
              = (∃ c2, compute_amount_cap (some s2)
                ⟨mtm, mty, mla, none, some ctx, mps, mbs⟩ = some c2 ∧ c1.val ≤ c2.val)
            from by rw [e1 s2]]
          rcases mla with _ | a <;> rcases mps with _ | p
          · exact Option.noConfusion hc1
          · injection hc1 with h1
            subst h1
            exact ⟨_, rfl, hpct p rfl⟩
          · injection hc1 with h1
            subst h1
            exact ⟨_, rfl, le_rfl⟩
          · injection hc1 with h1
            subst h1
            exact ⟨_, rfl, pymin_mono le_rfl (hpct p rfl)⟩
  · intro hmn hpn
    rcases r with ⟨mtm, mty, mla, msm, mc, mps, mbs⟩
    have hpn' : mps = none := hpn
    subst hpn'
    rcases mc with _ | ctx
    · rcases msm with _ | m <;> rcases mla with _ | a <;> rfl
    · by_cases hc : ctx = "months"
      · have hmn' : msm = none := hmn (by rw [hc])
        subst hmn'
        subst hc
        rcases mla with _ | a <;> rfl
      · rcases msm with _ | m <;> rcases mla with _ | a <;> simp [compute_amount_cap, hc]

/-- Witness for C9: a percentage-only rule set at salaries `100 ≤ 200`
(caps `50` and `100`). -/
theorem C9_cap_monotone_witness :
    ∃ c2, compute_amount_cap (some ⟨200, 0⟩)
        { emptyRules with max_percent_of_salary := some ⟨50, 0⟩ } = some c2
      ∧ (⟨5000, 2⟩ : Dec).val ≤ c2.val := by
  refine (C9_cap_monotone { emptyRules with max_percent_of_salary := some ⟨50, 0⟩ }
    ⟨100, 0⟩ ⟨200, 0⟩ ?_ ?_ ?_).1 ⟨5000, 2⟩ (by decide)
  · intro m h0
    exact Option.noConfusion h0
  · intro p h0
    injection h0 with h1
    subst h1
    norm_num [Dec.val]
  · norm_num [Dec.val]

/-- C5: if document loading fails (policy text empty — the degraded result
of a missing or unreadable PDF —, or the roster fails to load or resolve),
or the extracted policy has no checklist item and no non-null rule, then
the load-time guard stops the script: every interaction — form submit or
chat, whatever its content — yields the escalation response, and no
eligibility verdict is ever produced. -/
theorem C5_load_gate (pdf : Option String) (roster : Option RawTable)
    (h : read_pdf_text pdf = "" ∨ load_employees roster = none
        ∨ has_any_policy (policyOf (read_pdf_text pdf)) = false) :
    ∀ i, run_app pdf roster i = .gateEscalation
        ∧ ∀ v, run_app pdf roster i ≠ .verdictShown v := by
  have hgate : ¬ (read_pdf_text pdf ≠ "" ∧ (load_employees roster).isSome = true
      ∧ has_any_policy (policyOf (read_pdf_text pdf)) = true) := by
    rintro ⟨ha, hb, hc⟩
    rcases h with h | h | h
    · exact ha h
    · rw [h] at hb
      simp at hb
    · rw [hc] at h
      exact Bool.noConfusion h
  intro i
  constructor
  · simp only [run_app]
    rw [if_neg hgate]
  · intro v
    simp only [run_app]
    rw [if_neg hgate]
    simp

/-- Witness for C5: with the PDF missing and a roster present, a chat
interaction still gets the escalation gate. -/
theorem C5_load_gate_witness :
    run_app none (some ⟨["Name", "Base Salary", "Tenure"], []⟩) (.chat "loan")
      = .gateEscalation :=
  (C5_load_gate none (some ⟨["Name", "Base Salary", "Tenure"], []⟩)
    (Or.inl (by decide)) (.chat "loan")).1

/-- Witness for C4: tenure 6 against `min_tenure_months = 12` (Scenario B
of the spec). -/
theorem C4_tenure_gate_witness :
    check_eligibility (some ⟨"A", "a", some ⟨50000, 0⟩, some 6⟩) (some ⟨1000, 0⟩)
      [("x", false)] ⟨["x"], { emptyRules with min_tenure_months := some 12 }⟩
      = .notEligible "tenure" none :=
  (C4_tenure_gate "A" "a" ⟨50000, 0⟩ 6
    ⟨["x"], { emptyRules with min_tenure_months := some 12 }⟩
    [("x", false)] (some ⟨1000, 0⟩)).1 12 rfl (by decide)

end LoanBot
